import Mathlib

/-!
Shallow embedding of the Trading-Tools repository backtesting and
analytics core (mySMAbacktesting.py, StanWeinstein.py,
correlationHeatMap.py, riskvsreward.py, trading_dashboard.py).

Prices and returns are modelled as exact rationals.  The transcendental
functions the Python code applies pointwise (`np.log`, `np.exp`,
`np.sqrt`) are passed in as function parameters `lg`, `ex`, `sq` so that
every definition stays computable; theorems quantify over them, using
only properties the real functions enjoy (e.g. `sq 0 = 0`,
positivity on positives) where a property is needed.
-/

namespace TradingTools

/-- A row of the prepared frame produced by `SMABacktester.get_data`:
closing price, log return, short and long simple moving averages
(columns `Close`, `returns`, `SMA_S`, `SMA_L`). -/
structure Row where
  Close : ℚ
  returns : ℚ
  SMA_S : ℚ
  SMA_L : ℚ
deriving DecidableEq, Repr, Inhabited

/-- A row of the prepared frame produced by
`StanWeinsteinTester.get_data`: closing price, log return and the
30-week (150-day) moving average (columns `Close`, `returns`, `SMA_30`). -/
structure RowW where
  Close : ℚ
  returns : ℚ
  SMA_30 : ℚ
deriving DecidableEq, Repr, Inhabited

/-- `(rolling w mean)` of the Close column, i.e. pandas `Close.rolling(w).mean()` written without quotes evaluated at index `i`:
`none` (NaN) until a full window of `w` prices is available, otherwise
the arithmetic mean of prices at indices `i-w+1 .. i`. -/
def smaAt (w : Nat) (closes : List ℚ) (i : Nat) : Option ℚ :=
  if 1 ≤ w ∧ w ≤ i + 1 then
    some (((closes.take (i + 1)).drop (i + 1 - w)).sum / (w : ℚ))
  else none

/-- `np.log(Close.div(Close.shift(1)))` evaluated at
index `i`: NaN (`none`) at index 0, otherwise `lg` (the log) of the
price ratio. -/
def retAt (lg : ℚ → ℚ) (closes : List ℚ) (i : Nat) : Option ℚ :=
  if 1 ≤ i then some (lg (closes.getD i 0 / closes.getD (i - 1) 0)) else none

/-- One row of the frame of `SMABacktester.get_data` at index `i`, `none`
when any of the `returns` / `SMA_S` / `SMA_L` columns is NaN there
(such rows are removed by `data.dropna(inplace=True)`). -/
def mkRowSMA (lg : ℚ → ℚ) (sS sL : Nat) (closes : List ℚ) (i : Nat) : Option Row :=
  match retAt lg closes i, smaAt sS closes i, smaAt sL closes i with
  | some r, some a, some b => some ⟨closes.getD i 0, r, a, b⟩
  | _, _, _ => none

/-- `SMABacktester.get_data`: compute log returns and the two moving
averages from the close prices, then drop every row with a NaN. -/
def get_dataSMA (lg : ℚ → ℚ) (sS sL : Nat) (closes : List ℚ) : List Row :=
  (List.range closes.length).filterMap (mkRowSMA lg sS sL closes)

/-- One row of the frame of `StanWeinsteinTester.get_data` at index `i`
(30-week moving average, window `30 * 5 = 150`). -/
def mkRowW (lg : ℚ → ℚ) (closes : List ℚ) (i : Nat) : Option RowW :=
  match retAt lg closes i, smaAt (30 * 5) closes i with
  | some r, some s => some ⟨closes.getD i 0, r, s⟩
  | _, _ => none

/-- `StanWeinsteinTester.get_data`: log returns and the 150-day moving
average, NaN rows dropped. -/
def get_dataSW (lg : ℚ → ℚ) (closes : List ℚ) : List RowW :=
  (List.range closes.length).filterMap (mkRowW lg closes)

/-- `np.where(SMA_S > SMA_L, 1, -1)` at one row
(mySMAbacktesting.py line 118). -/
def positionSMA (r : Row) : ℤ :=
  if r.SMA_L < r.SMA_S then 1 else -1

/-- `np.where(Close > SMA_30, 1, -1)` at one row
(StanWeinstein.py line 104). -/
def positionSW (r : RowW) : ℤ :=
  if r.SMA_30 < r.Close then 1 else -1

/-- A frame row after the `position` and `strategy` columns have been
added by `test_results`; `strategy` is `Option`-valued because
`position.shift(1)` makes it NaN on the first row. -/
structure SRow (α : Type) where
  base : α
  position : ℤ
  strategy : Option ℚ
deriving DecidableEq, Repr

instance {α : Type} [Inhabited α] : Inhabited (SRow α) :=
  ⟨⟨default, 0, none⟩⟩

/-- The position column `np.where(...)` followed by the strategy
column `returns * position.shift(1)`:
row `i` keeps its base columns, gets the position computed at row `i`,
and a strategy return `returns[i] * position[i-1]` (NaN at `i = 0`,
where there is no prior position). -/
def addSignals {α : Type} [Inhabited α] (p : α → ℤ) (r : α → ℚ)
    (frame : List α) : List (SRow α) :=
  (List.range frame.length).map (fun i =>
    { base := frame.getD i default
      position := p (frame.getD i default)
      strategy :=
        if i = 0 then none
        else some (r (frame.getD i default) * (p (frame.getD (i - 1) default) : ℚ)) })

/-- `data.dropna(inplace=True)` after the strategy column was added:
only the `strategy` column can be NaN at this point, so exactly the
rows with an undefined strategy return are removed. -/
def dropnaStrategy {α : Type} (rows : List (SRow α)) : List (SRow α) :=
  rows.filter (fun s => s.strategy.isSome)

/-- `np.cumsum` semantics: entry `i` of the result is the sum of the
first `i + 1` entries of the input. -/
def cumsum (xs : List ℚ) : List ℚ :=
  (List.range xs.length).map (fun i => (xs.take (i + 1)).sum)

/-- The Python builtin `round(x, 6)`: scale by `10^6`, round to an integer,
scale back. -/
def round6 (q : ℚ) : ℚ :=
  (round (q * 1000000) : ℚ) / 1000000

/-- A row carrying the two cumulative columns
`returnsBH = cumsum(returns).apply(np.exp)` and
`returnstrategy = cumsum(strategy).apply(np.exp)`. -/
structure CRow (α : Type) where
  base : SRow α
  returnsBH : ℚ
  returnstrategy : ℚ
deriving DecidableEq, Repr

/-- Add the two cumulative-return columns to the lag-dropped frame. -/
def addCum {α : Type} [Inhabited α] (ex : ℚ → ℚ) (r : α → ℚ)
    (rows : List (SRow α)) : List (CRow α) :=
  let bh := (cumsum (rows.map (fun s => r s.base))).map ex
  let st := (cumsum (rows.map (fun s => s.strategy.getD 0))).map ex
  (List.range rows.length).map (fun i =>
    ⟨rows.getD i default, bh.getD i 0, st.getD i 0⟩)

/-- The body of `test_results` shared verbatim by the two backtesters:
add position and strategy columns, drop the NaN (first) row, build the
cumulative columns, and read `perf = returnstrategy.iloc[-1]`,
`outperf = perf - returnsBH.iloc[-1]`, both rounded to 6 decimals.
`iloc[-1]` on an empty frame raises `IndexError`; that failure is
modelled as `none`. -/
def evalStrategy {α : Type} [Inhabited α] (ex : ℚ → ℚ) (p : α → ℤ)
    (r : α → ℚ) (frame : List α) : Option (ℚ × ℚ) :=
  let rows := dropnaStrategy (addSignals p r frame)
  match (addCum ex r rows).getLast? with
  | some c => some (round6 c.returnstrategy, round6 (c.returnstrategy - c.returnsBH))
  | none => none

/-- `SMABacktester.test_results` on a prepared frame. -/
def test_resultsSMA (ex : ℚ → ℚ) (frame : List Row) : Option (ℚ × ℚ) :=
  evalStrategy ex positionSMA Row.returns frame

/-- `StanWeinsteinTester.test_results` on a prepared frame. -/
def test_resultsSW (ex : ℚ → ℚ) (frame : List RowW) : Option (ℚ × ℚ) :=
  evalStrategy ex positionSW RowW.returns frame

/-- The mutable attributes of an `SMABacktester` instance that the
computations touch: the prepared frame `data2` (written once by
`get_data`) and `results` (written by `test_results`). -/
structure BTState where
  SMA_S : Nat
  SMA_L : Nat
  data2 : List Row
  results : Option (List (CRow Row))

/-- `SMABacktester.__init__`: store the configuration (performing no
validation of it) and call `get_data`, which stores the prepared frame
in `self.data2`. -/
def initSMA (lg : ℚ → ℚ) (sS sL : Nat) (closes : List ℚ) : BTState :=
  ⟨sS, sL, get_dataSMA lg sS sL closes, none⟩

/-- `SMABacktester.test_results` as a state transformer: it works on
`self.data2.copy()` (the stored `data2` itself is not written), stores
the final frame in `self.results`, and returns the rounded
performance pair. -/
def test_resultsState (ex : ℚ → ℚ) (s : BTState) : BTState × Option (ℚ × ℚ) :=
  let rows := dropnaStrategy (addSignals positionSMA Row.returns s.data2)
  ({ s with results := some (addCum ex Row.returns rows) },
   test_resultsSMA ex s.data2)

/-- The mutable attributes of a `StanWeinsteinTester` instance. -/
structure SWState where
  data2 : List RowW
  results : Option (List (CRow RowW))

/-- `StanWeinsteinTester.test_results` as a state transformer. -/
def test_resultsStateSW (ex : ℚ → ℚ) (s : SWState) : SWState × Option (ℚ × ℚ) :=
  let rows := dropnaStrategy (addSignals positionSW RowW.returns s.data2)
  ({ s with results := some (addCum ex RowW.returns rows) },
   test_resultsSW ex s.data2)

/-! ### Correlation analysis (correlationHeatMap.py, trading_dashboard.py) -/

/-- Mean of a sample (pandas `mean`). -/
def sampleMean (xs : List ℚ) : ℚ :=
  xs.sum / (xs.length : ℚ)

/-- Sample variance with `ddof = 1` (pandas default). -/
def sampleVar (xs : List ℚ) : ℚ :=
  ((xs.map (fun x => (x - sampleMean xs) ^ 2)).sum) / ((xs.length : ℚ) - 1)

/-- Sample covariance with `ddof = 1`. -/
def sampleCov (xs ys : List ℚ) : ℚ :=
  (((xs.zip ys).map (fun q => (q.1 - sampleMean xs) * (q.2 - sampleMean ys))).sum)
    / ((xs.length : ℚ) - 1)

/-- Pearson correlation of two samples, with the square root passed in
as `sq` (the code uses the float `sqrt` inside pandas `corr`). -/
def corrQ (sq : ℚ → ℚ) (xs ys : List ℚ) : ℚ :=
  sampleCov xs ys / (sq (sampleVar xs) * sq (sampleVar ys))

/-- `corr_matrix = stocks.corr()` as written in correlationHeatMap.py
line 39 and trading_dashboard.py line 871: the Pearson correlation of
the raw price columns (`cols` maps each asset to its price series). -/
def corrMatrixCode (sq : ℚ → ℚ) (cols : List (List ℚ)) (i j : Nat) : ℚ :=
  corrQ sq (cols.getD i []) (cols.getD j [])

/-- `stocks.pct_change().dropna()` for one column: simple (percentage)
returns derived from the prices, defined from index 1 onward. -/
def pctChange (xs : List ℚ) : List ℚ :=
  (List.range (xs.length - 1)).map (fun i => xs.getD (i + 1) 0 / xs.getD i 0 - 1)

/-- Modelled from the spec: the correlation matrix the spec describes,
computed over the return series of the assets (as section 4.4 of the
spec words it) — the Pearson
correlation of the return series derived from the prices, used only to
compare against `corrMatrixCode`. -/
def corrMatrixSpec (sq : ℚ → ℚ) (cols : List (List ℚ)) (i j : Nat) : ℚ :=
  corrQ sq (pctChange (cols.getD i [])) (pctChange (cols.getD j []))

/-- `low_corr_counts = (np.abs(corr_matrix) < threshold).sum(axis=1) - 1`
(correlationHeatMap.py line 53, trading_dashboard.py line 874): count
the entries of row `i` with absolute value below the threshold, then
subtract one. -/
def lowCorrCountsVec {n : Nat} (M : Fin n → Fin n → ℚ) (t : ℚ) (i : Fin n) : ℤ :=
  ((Finset.univ.filter (fun j => |M i j| < t)).card : ℤ) - 1

/-- The per-ticker loop of correlationHeatMap.py lines 56-60:
`corr_matrix.index[(np.abs(corr_matrix[ticker]) < threshold) &
(corr_matrix.index != ticker)]` — the number of assets `j ≠ i` whose
correlation with asset `i` (column `i`, entry `M j i`) is below the
threshold in absolute value. -/
def lowCorrLoopCount {n : Nat} (M : Fin n → Fin n → ℚ) (t : ℚ) (i : Fin n) : ℕ :=
  (Finset.univ.filter (fun j => |M j i| < t ∧ j ≠ i)).card

/-! ### Risk vs reward (riskvsreward.py, trading_dashboard.py) -/

/-- IEEE-style float values as far as the Sharpe computation can
produce them: a finite rational, an infinity, or NaN. -/
inductive FloatQ where
  | fin (q : ℚ)
  | inf
  | neginf
  | nan
deriving DecidableEq, Repr

/-- IEEE division of two finite floats: a nonzero value divided by
zero is a signed infinity; `0 / 0` is NaN. -/
def fdiv (a b : ℚ) : FloatQ :=
  if b = 0 then
    if 0 < a then .inf else if a < 0 then .neginf else .nan
  else .fin (a / b)

/-- `summary["mean"] = summary["mean"] * 252` for the daily
simple-return series (riskvsreward.py line 53, trading_dashboard.py
line 696). -/
def annMean (xs : List ℚ) : ℚ :=
  sampleMean xs * 252

/-- `summary["std"] = summary["std"] * np.sqrt(252)` for one asset:
the sample standard deviation `sq (sampleVar xs)` scaled by the
(irrational, hence parameterised) `np.sqrt(252) = s252`
(riskvsreward.py line 54, trading_dashboard.py line 697). -/
def annStd (sq : ℚ → ℚ) (s252 : ℚ) (xs : List ℚ) : ℚ :=
  sq (sampleVar xs) * s252

/-- `summary["sharpe"] = summary["mean"] / summary["std"]`
(trading_dashboard.py line 698): a plain float division of the
annualised mean by the annualised standard deviation. -/
def sharpe (sq : ℚ → ℚ) (s252 : ℚ) (xs : List ℚ) : FloatQ :=
  fdiv (annMean xs) (annStd sq s252 xs)

/-! ### Helper lemmas about the lag structure -/

theorem addSignals_length {α : Type} [Inhabited α] (p : α → ℤ) (r : α → ℚ)
    (frame : List α) : (addSignals p r frame).length = frame.length := by
  simp [addSignals]

theorem addSignals_getD {α : Type} [Inhabited α] (p : α → ℤ) (r : α → ℚ)
    (frame : List α) (i : Nat) (h : i < frame.length) :
    (addSignals p r frame).getD i default =
      { base := frame.getD i default
        position := p (frame.getD i default)
        strategy :=
          if i = 0 then none
          else some (r (frame.getD i default) * (p (frame.getD (i - 1) default) : ℚ)) } := by
  unfold addSignals
  rw [List.getD_eq_getElem _ _ (by simpa using h)]
  simp

/-- The strategy-column NaN drop removes exactly the single leading row:
on the frame with position and strategy columns added, pandas dropna is
the same as dropping the first row. -/
theorem dropna_addSignals {α : Type} [Inhabited α] (p : α → ℤ) (r : α → ℚ)
    (frame : List α) :
    dropnaStrategy (addSignals p r frame) = (addSignals p r frame).drop 1 := by
  unfold dropnaStrategy addSignals
  cases frame with
  | nil => simp
  | cons a as =>
    rw [List.length_cons, List.range_succ_eq_map]
    simp only [List.map_cons, List.map_map]
    rw [List.filter_cons]
    simp only [if_pos rfl, Option.isSome_none, Bool.false_eq_true, if_false,
      List.drop_succ_cons, List.drop_zero]
    refine List.filter_eq_self.mpr ?_
    intro x hx
    simp only [List.mem_map, Function.comp] at hx
    obtain ⟨i, _, rfl⟩ := hx
    simp

theorem getD_drop_one {β : Type} [Inhabited β] (l : List β) (i : Nat) :
    (l.drop 1).getD i default = l.getD (i + 1) default := by
  cases l with
  | nil => simp
  | cons a l => simp [List.getD_cons_succ]

/-- Row `i` of the lag-dropped frame carries the strategy return
`returns[i+1] * position[i]` of the original frame. -/
theorem lag_strategy {α : Type} [Inhabited α] (p : α → ℤ) (r : α → ℚ)
    (frame : List α) (i : Nat) (h : i + 1 < frame.length) :
    ((dropnaStrategy (addSignals p r frame)).getD i default).strategy =
      some (r (frame.getD (i + 1) default) * (p (frame.getD i default) : ℚ)) := by
  rw [dropna_addSignals, getD_drop_one, addSignals_getD p r frame (i + 1) h]
  simp

/-! ### C1, C2, C10 -/

/-- C1: on every preprocessed frame, after the position and strategy
columns are added, the NaN drop removes exactly the single leading row
(the one with no prior position) before the cumulative columns are
built, and each retained row `t` carries the strategy return
`returns[t] * position[t-1]` (the position lagged by exactly one row) —
for both `SMABacktester.test_results` and
`StanWeinsteinTester.test_results`. -/
theorem c1_lag_invariant :
    (∀ frame : List Row,
      dropnaStrategy (addSignals positionSMA Row.returns frame)
        = (addSignals positionSMA Row.returns frame).drop 1 ∧
      ∀ i : Nat, i + 1 < frame.length →
        ((dropnaStrategy (addSignals positionSMA Row.returns frame)).getD i default).strategy
          = some ((frame.getD (i + 1) default).returns
              * (positionSMA (frame.getD i default) : ℚ))) ∧
    (∀ frame : List RowW,
      dropnaStrategy (addSignals positionSW RowW.returns frame)
        = (addSignals positionSW RowW.returns frame).drop 1 ∧
      ∀ i : Nat, i + 1 < frame.length →
        ((dropnaStrategy (addSignals positionSW RowW.returns frame)).getD i default).strategy
          = some ((frame.getD (i + 1) default).returns
              * (positionSW (frame.getD i default) : ℚ))) :=
  ⟨fun frame => ⟨dropna_addSignals _ _ frame, fun i h => lag_strategy _ _ frame i h⟩,
   fun frame => ⟨dropna_addSignals _ _ frame, fun i h => lag_strategy _ _ frame i h⟩⟩

theorem c1_lag_invariant_witness :
    ((dropnaStrategy (addSignals positionSMA Row.returns
        [⟨1, 2, 3, 4⟩, ⟨5, 6, 7, 8⟩])).getD 0 default).strategy = some (-6) := by
  have h := (c1_lag_invariant.1 [⟨1, 2, 3, 4⟩, ⟨5, 6, 7, 8⟩]).2 0 (by decide)
  rw [h]
  norm_num [positionSMA]

/-- C2: the generated position is `+1` exactly when the deciding
quantity (the short SMA for `SMABacktester`, the price for the
threshold rule of `StanWeinsteinTester`) is strictly greater than the
long rolling average and `-1` otherwise; an exact tie yields `-1`, and
the position column of the signal frame never holds a value outside
`{+1, -1}`. -/
theorem c2_position_values :
    (∀ r : Row,
      (positionSMA r = 1 ↔ r.SMA_L < r.SMA_S) ∧
      (positionSMA r = -1 ↔ ¬ r.SMA_L < r.SMA_S) ∧
      (r.SMA_S = r.SMA_L → positionSMA r = -1) ∧
      (positionSMA r = 1 ∨ positionSMA r = -1)) ∧
    (∀ r : RowW,
      (positionSW r = 1 ↔ r.SMA_30 < r.Close) ∧
      (positionSW r = -1 ↔ ¬ r.SMA_30 < r.Close) ∧
      (r.Close = r.SMA_30 → positionSW r = -1) ∧
      (positionSW r = 1 ∨ positionSW r = -1)) ∧
    (∀ (frame : List Row) (z : ℤ),
      z ∈ (addSignals positionSMA Row.returns frame).map SRow.position →
        z = 1 ∨ z = -1) ∧
    (∀ (frame : List RowW) (z : ℤ),
      z ∈ (addSignals positionSW RowW.returns frame).map SRow.position →
        z = 1 ∨ z = -1) := by
  have hSMA : ∀ r : Row, positionSMA r = 1 ∨ positionSMA r = -1 := by
    intro r
    unfold positionSMA
    by_cases h : r.SMA_L < r.SMA_S <;> simp [h]
  have hSW : ∀ r : RowW, positionSW r = 1 ∨ positionSW r = -1 := by
    intro r
    unfold positionSW
    by_cases h : r.SMA_30 < r.Close <;> simp [h]
  refine ⟨fun r => ⟨?_, ?_, ?_, hSMA r⟩, fun r => ⟨?_, ?_, ?_, hSW r⟩, ?_, ?_⟩
  · unfold positionSMA
    by_cases h : r.SMA_L < r.SMA_S <;> simp [h]
  · unfold positionSMA
    by_cases h : r.SMA_L < r.SMA_S <;> simp [h]
  · intro h
    unfold positionSMA
    rw [if_neg (by rw [h]; exact lt_irrefl _)]
  · unfold positionSW
    by_cases h : r.SMA_30 < r.Close <;> simp [h]
  · unfold positionSW
    by_cases h : r.SMA_30 < r.Close <;> simp [h]
  · intro h
    unfold positionSW
    rw [if_neg (by rw [h]; exact lt_irrefl _)]
  · intro frame z hz
    simp only [List.mem_map] at hz
    obtain ⟨s, hs, rfl⟩ := hz
    simp only [addSignals, List.mem_map, List.mem_range] at hs
    obtain ⟨i, _, rfl⟩ := hs
    exact hSMA _
  · intro frame z hz
    simp only [List.mem_map] at hz
    obtain ⟨s, hs, rfl⟩ := hz
    simp only [addSignals, List.mem_map, List.mem_range] at hs
    obtain ⟨i, _, rfl⟩ := hs
    exact hSW _

theorem c2_position_values_witness :
    (positionSMA ⟨10, 0, 5, 5⟩ = -1) ∧
    (positionSW ⟨7, 0, 7⟩ = -1) ∧
    ((1 : ℤ) = 1 ∨ (1 : ℤ) = -1) := by
  refine ⟨(c2_position_values.1 ⟨10, 0, 5, 5⟩).2.2.1 rfl,
          (c2_position_values.2.1 ⟨7, 0, 7⟩).2.2.1 rfl,
          c2_position_values.2.2.1 [⟨1, 2, 5, 4⟩] 1 ?_⟩
  have h : addSignals positionSMA Row.returns [⟨1, 2, 5, 4⟩]
      = [⟨⟨1, 2, 5, 4⟩, 1, none⟩] := by
    norm_num [addSignals, List.range_succ, positionSMA]
  rw [h]
  simp

/-- C10: `test_results` operates on a copy of the prepared frame: it
never writes the stored `data2`, so two consecutive calls on the same
instance return equal (performance, outperformance) results — for both
backtester classes. -/
theorem c10_test_results_pure :
    (∀ (ex : ℚ → ℚ) (s : BTState),
      (test_resultsState ex s).1.data2 = s.data2 ∧
      (test_resultsState ex (test_resultsState ex s).1).2 = (test_resultsState ex s).2) ∧
    (∀ (ex : ℚ → ℚ) (s : SWState),
      (test_resultsStateSW ex s).1.data2 = s.data2 ∧
      (test_resultsStateSW ex (test_resultsStateSW ex s).1).2 = (test_resultsStateSW ex s).2) :=
  ⟨fun _ _ => ⟨rfl, rfl⟩, fun _ _ => ⟨rfl, rfl⟩⟩

/-! ### Cumulative-column lemmas and C3 -/

theorem cumsum_getElem (xs : List ℚ) (i : Nat) (h : i < xs.length) :
    (cumsum xs).getD i 0 = (xs.take (i + 1)).sum := by
  unfold cumsum
  rw [List.getD_eq_getElem _ _ (by simpa using h)]
  simp

theorem getLast?_range_map {β : Type} (f : Nat → β) (n : Nat) (h : n ≠ 0) :
    ((List.range n).map f).getLast? = some (f (n - 1)) := by
  rw [List.getLast?_eq_getElem?]
  have hlt : n - 1 < n := Nat.sub_lt (Nat.pos_of_ne_zero h) one_pos
  simp [List.getElem?_eq_getElem, hlt]

/-- The last row of the cumulative frame: its buy-and-hold column is
`ex` of the total return sum and its strategy column is `ex` of the
total strategy sum — the last value of a cumulative sum is the total
sum. -/
theorem addCum_getLast {α : Type} [Inhabited α] (ex : ℚ → ℚ) (r : α → ℚ)
    (rows : List (SRow α)) (h : rows ≠ []) :
    (addCum ex r rows).getLast? =
      some ⟨rows.getD (rows.length - 1) default,
            ex ((rows.map (fun s => r s.base)).sum),
            ex ((rows.map (fun s => s.strategy.getD 0)).sum)⟩ := by
  have hn : rows.length ≠ 0 := by simpa using h
  have hlt : rows.length - 1 < rows.length := Nat.sub_lt (Nat.pos_of_ne_zero hn) one_pos
  have hcancel : rows.length - 1 + 1 = rows.length := Nat.sub_add_cancel (Nat.pos_of_ne_zero hn)
  unfold addCum
  rw [getLast?_range_map _ _ hn]
  have hbh : ((cumsum (rows.map (fun s => r s.base))).map ex).getD (rows.length - 1) 0
      = ex ((rows.map (fun s => r s.base)).sum) := by
    rw [List.getD_eq_getElem _ _ (by simpa [cumsum] using hlt), List.getElem_map]
    have := cumsum_getElem (rows.map (fun s => r s.base)) (rows.length - 1) (by simpa using hlt)
    rw [List.getD_eq_getElem _ _ (by simpa [cumsum] using hlt)] at this
    rw [this, hcancel, List.take_of_length_le (by simp)]
  have hst : ((cumsum (rows.map (fun s => s.strategy.getD 0))).map ex).getD (rows.length - 1) 0
      = ex ((rows.map (fun s => s.strategy.getD 0)).sum) := by
    rw [List.getD_eq_getElem _ _ (by simpa [cumsum] using hlt), List.getElem_map]
    have := cumsum_getElem (rows.map (fun s => s.strategy.getD 0)) (rows.length - 1)
      (by simpa using hlt)
    rw [List.getD_eq_getElem _ _ (by simpa [cumsum] using hlt)] at this
    rw [this, hcancel, List.take_of_length_le (by simp)]
  rw [hbh, hst]

/-- C3: whenever at least one row survives the lag-drop, the evaluator
returns the pair (performance, outperformance) where performance is the
last value of the exp-of-cumsum strategy column — i.e. `ex` applied to
the total strategy-return sum — and outperformance is that value minus
the last value of the exp-of-cumsum buy-and-hold column, both rounded
to exactly 6 decimal places. -/
theorem c3_evaluator {α : Type} [Inhabited α] (ex : ℚ → ℚ) (p : α → ℤ) (r : α → ℚ)
    (frame : List α) (h : dropnaStrategy (addSignals p r frame) ≠ []) :
    evalStrategy ex p r frame =
      some (round6 (ex (((dropnaStrategy (addSignals p r frame)).map
              (fun s => s.strategy.getD 0)).sum)),
            round6 (ex (((dropnaStrategy (addSignals p r frame)).map
              (fun s => s.strategy.getD 0)).sum)
              - ex (((dropnaStrategy (addSignals p r frame)).map
              (fun s => r s.base)).sum))) ∧
    ((cumsum ((dropnaStrategy (addSignals p r frame)).map
        (fun s => s.strategy.getD 0))).map ex).getLast? =
      some (ex (((dropnaStrategy (addSignals p r frame)).map
        (fun s => s.strategy.getD 0)).sum)) := by
  constructor
  · unfold evalStrategy
    simp only [addCum_getLast ex r _ h]
  · have hn : ((dropnaStrategy (addSignals p r frame)).map
        (fun s => s.strategy.getD 0)).length ≠ 0 := by simpa using h
    unfold cumsum
    rw [List.map_map, getLast?_range_map _ _ (by simpa using hn)]
    simp only [Function.comp]
    rw [Nat.sub_add_cancel (by simpa using Nat.pos_of_ne_zero hn),
      List.take_of_length_le (by simp)]

theorem c3_evaluator_witness :
    evalStrategy (fun q => q) positionSMA Row.returns
        [⟨1, 1/2, 3, 4⟩, ⟨2, 1/3, 5, 4⟩] =
      some (round6 ((fun q => q) (((dropnaStrategy (addSignals positionSMA Row.returns
              [⟨1, 1/2, 3, 4⟩, ⟨2, 1/3, 5, 4⟩])).map
              (fun s => s.strategy.getD 0)).sum)),
            round6 ((fun q => q) (((dropnaStrategy (addSignals positionSMA Row.returns
              [⟨1, 1/2, 3, 4⟩, ⟨2, 1/3, 5, 4⟩])).map
              (fun s => s.strategy.getD 0)).sum)
              - (fun q => q) (((dropnaStrategy (addSignals positionSMA Row.returns
              [⟨1, 1/2, 3, 4⟩, ⟨2, 1/3, 5, 4⟩])).map
              (fun s => Row.returns s.base)).sum))) :=
  (c3_evaluator (fun q => q) positionSMA Row.returns
    [⟨1, 1/2, 3, 4⟩, ⟨2, 1/3, 5, 4⟩]
    (by
      rw [dropna_addSignals]
      intro hnil
      have hlen := congrArg List.length hnil
      simp [addSignals] at hlen)).1

/-! ### C4: the golden test vector -/

/-- The concrete price series of the golden scenario in section 8 of
the spec. -/
def goldenCloses : List ℚ := [100, 102, 101, 105, 107, 106, 110]

/-- The position column of the prepared frame does not depend on the
log function used for the returns column. -/
theorem map_positions_independent (lg : ℚ → ℚ) (sS sL : Nat) (closes : List ℚ) :
    (get_dataSMA lg sS sL closes).map positionSMA
      = (get_dataSMA (fun _ => 0) sS sL closes).map positionSMA := by
  unfold get_dataSMA
  rw [List.map_filterMap, List.map_filterMap]
  congr 1
  funext i
  unfold mkRowSMA retAt
  by_cases h1 : 1 ≤ i
  · simp only [if_pos h1]
    cases smaAt sS closes i <;> cases smaAt sL closes i <;> simp [positionSMA]
  · simp [if_neg h1]

/-- C4: on the golden price series with the threshold rule
(price > SMA(3), realised in the repository as `SMA_S = 1` versus
`SMA_L = 3`), the 3-period moving averages at original indices 2..6 are
101, 308/3, 313/3, 106 and 323/3, the prepared frame retains exactly
the rows at original indices 2..6, and its position column is
[-1, 1, 1, -1, 1] — so the positions at original indices 3..6 are
[1, 1, -1, 1] as the claim states. -/
theorem c4_golden_vector :
    (smaAt 3 goldenCloses 2 = some 101 ∧
     smaAt 3 goldenCloses 3 = some (308/3) ∧
     smaAt 3 goldenCloses 4 = some (313/3) ∧
     smaAt 3 goldenCloses 5 = some 106 ∧
     smaAt 3 goldenCloses 6 = some (323/3)) ∧
    ∀ lg : ℚ → ℚ,
      (get_dataSMA lg 1 3 goldenCloses).map positionSMA = [-1, 1, 1, -1, 1] ∧
      ((get_dataSMA lg 1 3 goldenCloses).map positionSMA).drop 1 = [1, 1, -1, 1] := by
  constructor
  · refine ⟨?_, ?_, ?_, ?_, ?_⟩ <;> norm_num [smaAt, goldenCloses]
  · intro lg
    have h : (get_dataSMA lg 1 3 goldenCloses).map positionSMA = [-1, 1, 1, -1, 1] := by
      rw [map_positions_independent]
      norm_num [get_dataSMA, goldenCloses, mkRowSMA, retAt, smaAt,
        List.range_succ, List.filterMap_append, List.filterMap_cons, positionSMA]
    exact ⟨h, by rw [h]; rfl⟩

/-! ### C5, C6: the error handling the spec describes does not exist -/

theorem evalStrategy_isSome {α : Type} [Inhabited α] (ex : ℚ → ℚ) (p : α → ℤ)
    (r : α → ℚ) (frame : List α) :
    (evalStrategy ex p r frame).isSome = true
      ↔ dropnaStrategy (addSignals p r frame) ≠ [] := by
  have hlen : (addCum ex r (dropnaStrategy (addSignals p r frame))).length
      = (dropnaStrategy (addSignals p r frame)).length := by simp [addCum]
  unfold evalStrategy
  cases hlast : (addCum ex r (dropnaStrategy (addSignals p r frame))).getLast? with
  | none =>
    have hnil : addCum ex r (dropnaStrategy (addSignals p r frame)) = [] := by
      rwa [List.getLast?_eq_none_iff] at hlast
    have hrows : dropnaStrategy (addSignals p r frame) = [] := by
      have hl := congrArg List.length hnil
      rw [hlen] at hl
      exact List.length_eq_zero.mp hl
    simp [hlast, hrows, addCum]
  | some c =>
    have hrows : dropnaStrategy (addSignals p r frame) ≠ [] := by
      intro hnil
      rw [hnil] at hlast
      simp [addCum] at hlast
    simp [hlast, hrows]

/-- C5 counterexample: with a 2-day history and a long window of 5,
preprocessing returns the empty frame (raising nothing — there is no
InsufficientDataError in the code), evaluating that empty frame fails
with an index error (`none`), not a named error, and on a frame where
exactly one aligned row survives the lag-drop (fewer than the 2 the
claim requires) evaluation happily returns a performance value. -/
theorem c5_counterexample :
    get_dataSMA (fun q => q) 1 5 [100, 102] = [] ∧
    test_resultsSMA (fun q => q) (get_dataSMA (fun q => q) 1 5 [100, 102]) = none ∧
    (test_resultsSMA (fun q => q) (get_dataSMA (fun q => q) 1 2 [100, 102, 101])).isSome
      = true := by
  have h1 : get_dataSMA (fun q => q) 1 5 [100, 102] = [] := by
    norm_num [get_dataSMA, mkRowSMA, retAt, smaAt, List.range_succ,
      List.filterMap_append, List.filterMap_cons]
  have h2 : (get_dataSMA (fun q => q) 1 2 [100, 102, 101]).length = 2 := by
    norm_num [get_dataSMA, mkRowSMA, retAt, smaAt, List.range_succ,
      List.filterMap_append, List.filterMap_cons]
  refine ⟨h1, ?_, ?_⟩
  · rw [h1]
    rfl
  · rw [test_resultsSMA, evalStrategy_isSome, dropna_addSignals]
    intro hnil
    have hl := congrArg List.length hnil
    rw [List.length_drop, addSignals_length, h2] at hl
    simp at hl

/-- C5 amended: preprocessing performs no row-count validation —
whenever the history is shorter than the largest window it simply
returns the empty frame; evaluation returns a performance pair exactly
when at least one (not two) aligned row survives the lag-drop, and on
zero surviving rows it fails with an uncaught index error (modelled as
`none`), not an InsufficientDataError. -/
theorem c5_amended :
    (∀ (lg : ℚ → ℚ) (sS sL : Nat) (closes : List ℚ), closes.length < sL →
       get_dataSMA lg sS sL closes = []) ∧
    (∀ (ex : ℚ → ℚ) (frame : List Row),
       (test_resultsSMA ex frame).isSome = true
         ↔ dropnaStrategy (addSignals positionSMA Row.returns frame) ≠ []) ∧
    (∀ (ex : ℚ → ℚ) (frame : List RowW),
       (test_resultsSW ex frame).isSome = true
         ↔ dropnaStrategy (addSignals positionSW RowW.returns frame) ≠ []) := by
  refine ⟨?_, fun ex frame => evalStrategy_isSome ex positionSMA Row.returns frame,
    fun ex frame => evalStrategy_isSome ex positionSW RowW.returns frame⟩
  intro lg sS sL closes h
  unfold get_dataSMA
  refine List.filterMap_eq_nil_iff.mpr ?_
  intro i hi
  rw [List.mem_range] at hi
  have hsma : smaAt sL closes i = none := by
    unfold smaAt
    rw [if_neg]
    rintro ⟨-, h2⟩
    omega
  unfold mkRowSMA
  rw [hsma]
  cases retAt lg closes i <;> cases smaAt sS closes i <;> rfl

theorem c5_amended_witness :
    get_dataSMA (fun q => q) 1 200 [100, 102] = [] :=
  c5_amended.1 (fun q => q) 1 200 [100, 102] (by norm_num)

/-- C6 counterexample: `SMABacktester.__init__` with a short window of
3 and a long window of 2 (short ≥ long, which the claim says must fail
with ConfigurationError) silently proceeds: it prepares a 2-row frame
and `test_results` then returns a performance value.  The
low-correlation count accepts a single-asset matrix (fewer than 2
assets) and silently returns the nonsensical count -1, and accepts the
out-of-range threshold 2 and silently returns a count. -/
theorem c6_counterexample :
    ((initSMA (fun q => q) 3 2 [100, 102, 101, 105]).data2).length = 2 ∧
    ((test_resultsState (fun q => q)
        (initSMA (fun q => q) 3 2 [100, 102, 101, 105])).2).isSome = true ∧
    lowCorrCountsVec (fun _ _ : Fin 1 => (1 : ℚ)) (2/5) 0 = -1 ∧
    lowCorrCountsVec (fun i j : Fin 2 => if i = j then (1 : ℚ) else 0) 2 0 = 1 := by
  have h2 : ((initSMA (fun q => q) 3 2 [100, 102, 101, 105]).data2).length = 2 := by
    norm_num [initSMA, get_dataSMA, mkRowSMA, retAt, smaAt, List.range_succ,
      List.filterMap_append, List.filterMap_cons]
  refine ⟨h2, ?_, ?_, ?_⟩
  · show (test_resultsSMA (fun q => q)
        (initSMA (fun q => q) 3 2 [100, 102, 101, 105]).data2).isSome = true
    rw [test_resultsSMA, evalStrategy_isSome, dropna_addSignals]
    intro hnil
    have hl := congrArg List.length hnil
    rw [List.length_drop, addSignals_length, h2] at hl
    simp at hl
  · have hfilter : (Finset.univ.filter
        (fun j : Fin 1 => |(fun _ _ : Fin 1 => (1 : ℚ)) 0 j| < 2/5)) = ∅ :=
      Finset.filter_eq_empty_iff.mpr (fun j _ => by norm_num)
    unfold lowCorrCountsVec
    rw [hfilter]
    rfl
  · have hfilter : (Finset.univ.filter
        (fun j : Fin 2 => |(fun i j : Fin 2 => if i = j then (1 : ℚ) else 0) 0 j| < 2))
          = Finset.univ :=
      Finset.filter_true_of_mem (fun j _ => by fin_cases j <;> norm_num)
    unfold lowCorrCountsVec
    rw [hfilter]
    rfl

/-- C6 amended: no computation validates its configuration.  The
backtester accepts a short window ≥ the long window and still prepares
data and evaluates (success depends only on how many rows survive, not
on the validity of the windows); the low-correlation count accepts a
single asset and silently reports -1 for it, and accepts a threshold
above 1, for which it silently counts every asset including the asset
itself (reporting n - 1).  No ConfigurationError exists in the code. -/
theorem c6_amended :
    (∀ (lg ex : ℚ → ℚ) (sS sL : Nat) (closes : List ℚ), sL ≤ sS →
       (initSMA lg sS sL closes).data2 = get_dataSMA lg sS sL closes ∧
       ((test_resultsState ex (initSMA lg sS sL closes)).2.isSome = true
          ↔ dropnaStrategy (addSignals positionSMA Row.returns
              (get_dataSMA lg sS sL closes)) ≠ [])) ∧
    (∀ (M : Fin 1 → Fin 1 → ℚ) (t : ℚ), M 0 0 = 1 → t ≤ 1 →
       lowCorrCountsVec M t 0 = -1) ∧
    (∀ (n : Nat) (M : Fin n → Fin n → ℚ) (t : ℚ) (i : Fin n),
       (∀ j, |M i j| ≤ 1) → 1 < t →
       lowCorrCountsVec M t i = (n : ℤ) - 1) := by
  refine ⟨fun lg ex sS sL closes _ =>
      ⟨rfl, evalStrategy_isSome ex positionSMA Row.returns (get_dataSMA lg sS sL closes)⟩,
    ?_, ?_⟩
  · intro M t hM ht
    have hfilter : (Finset.univ.filter (fun j : Fin 1 => |M 0 j| < t)) = ∅ :=
      Finset.filter_eq_empty_iff.mpr (fun j _ => by
        rw [Fin.eq_zero j, hM, abs_one]
        exact not_lt.mpr ht)
    unfold lowCorrCountsVec
    rw [hfilter]
    rfl
  · intro n M t i hM ht
    have hfilter : (Finset.univ.filter (fun j : Fin n => |M i j| < t)) = Finset.univ :=
      Finset.filter_true_of_mem (fun j _ => lt_of_le_of_lt (hM j) ht)
    unfold lowCorrCountsVec
    rw [hfilter, Finset.card_univ, Fintype.card_fin]

theorem c6_amended_witness :
    ((initSMA (fun q => q) 5 2 [100, 102]).data2
        = get_dataSMA (fun q => q) 5 2 [100, 102] ∧
      ((test_resultsState (fun q => q) (initSMA (fun q => q) 5 2 [100, 102])).2.isSome = true
        ↔ dropnaStrategy (addSignals positionSMA Row.returns
            (get_dataSMA (fun q => q) 5 2 [100, 102])) ≠ [])) ∧
    lowCorrCountsVec (fun _ _ : Fin 1 => (1 : ℚ)) (1/2) 0 = -1 ∧
    lowCorrCountsVec (fun _ _ : Fin 3 => (0 : ℚ)) 2 0 = (3 : ℤ) - 1 :=
  ⟨c6_amended.1 (fun q => q) (fun q => q) 5 2 [100, 102] (by norm_num),
   c6_amended.2.1 (fun _ _ => 1) (1/2) rfl (by norm_num),
   c6_amended.2.2 3 (fun _ _ => 0) 2 0 (fun j => by norm_num) (by norm_num)⟩

/-! ### C7: the Sharpe ratio at zero volatility -/

/-- C7 counterexample: for an asset whose daily returns are constant
(standard deviation exactly zero) the dashboard Sharpe computation is
the plain division annualised-mean / 0, which silently produces an
IEEE infinity — not an explicit undefined sentinel.  The annualised
mean and standard deviation are still produced.  (The `sq` slot of the
embedding is the float square root; only `sq 0 = 0` matters here, so
the identity is passed.) -/
theorem c7_counterexample :
    sharpe (fun q => q) 1 [1/100, 1/100, 1/100] = FloatQ.inf ∧
    annMean [1/100, 1/100, 1/100] = 63/25 ∧
    annStd (fun q => q) 1 [1/100, 1/100, 1/100] = 0 := by
  have hvar : sampleVar [1/100, 1/100, 1/100] = 0 := by
    norm_num [sampleVar, sampleMean]
  have hstd : annStd (fun q => q) 1 [1/100, 1/100, 1/100] = 0 := by
    rw [annStd, hvar]
    norm_num
  have hmean : annMean [1/100, 1/100, 1/100] = 63/25 := by
    norm_num [annMean, sampleMean]
  refine ⟨?_, hmean, hstd⟩
  rw [sharpe, hstd, hmean, fdiv, if_pos rfl, if_pos (by norm_num)]

/-- C7 amended: when the sample variance of the daily returns is
exactly zero, the Sharpe value produced by the code is the IEEE
division of the annualised mean by zero — positive infinity for a
positive mean, negative infinity for a negative mean, NaN for a zero
mean — silently, with no undefined sentinel; the annualised mean and
standard deviation are still produced.  (riskvsreward.py computes no
Sharpe column at all; the dashboard line 698 is the computation
modelled here.) -/
theorem c7_amended (sq : ℚ → ℚ) (s252 : ℚ) (xs : List ℚ)
    (h0 : sq 0 = 0) (hv : sampleVar xs = 0) :
    sharpe sq s252 xs =
      (if 0 < annMean xs then FloatQ.inf
       else if annMean xs < 0 then FloatQ.neginf else FloatQ.nan) ∧
    annStd sq s252 xs = 0 ∧
    annMean xs = sampleMean xs * 252 := by
  have hstd : annStd sq s252 xs = 0 := by
    rw [annStd, hv, h0, zero_mul]
  refine ⟨?_, hstd, rfl⟩
  rw [sharpe, hstd, fdiv, if_pos rfl]

theorem c7_amended_witness :
    sharpe (fun q => q) 1 [2/100, 2/100] =
      (if 0 < annMean [2/100, 2/100] then FloatQ.inf
       else if annMean [2/100, 2/100] < 0 then FloatQ.neginf else FloatQ.nan) ∧
    annStd (fun q => q) 1 [2/100, 2/100] = 0 ∧
    annMean [2/100, 2/100] = sampleMean [2/100, 2/100] * 252 :=
  c7_amended (fun q => q) 1 [2/100, 2/100] rfl (by norm_num [sampleVar, sampleMean])

/-! ### C8: the correlation matrix is over price levels, not returns -/

/-- The two-asset price table used to separate the price-level
correlation from the return correlation: asset 0 rises, asset 1 falls,
yet both return series fall from one period to the next. -/
def pricesC8 : List (List ℚ) := [[1, 2, 3], [3, 2, 1]]

/-- C8 counterexample: on `pricesC8` the matrix the code computes
(correlation of the raw price columns) and the matrix the spec
describes (correlation of the derived return series) differ at entry
(0, 1).  With the identity in the square-root slot the code entry is
-1 while the spec entry is 24; the sign difference is genuine (see the
amended theorem), the magnitudes depend on the square-root model. -/
theorem c8_counterexample :
    corrMatrixCode (fun q => q) pricesC8 0 1 = -1 ∧
    corrMatrixSpec (fun q => q) pricesC8 0 1 = 24 ∧
    corrMatrixCode (fun q => q) pricesC8 0 1 ≠ corrMatrixSpec (fun q => q) pricesC8 0 1 := by
  have h1 : corrMatrixCode (fun q => q) pricesC8 0 1 = -1 := by
    norm_num [corrMatrixCode, pricesC8, corrQ, sampleCov, sampleVar, sampleMean]
  have h2 : corrMatrixSpec (fun q => q) pricesC8 0 1 = 24 := by
    norm_num [corrMatrixSpec, pricesC8, pctChange, corrQ, sampleCov, sampleVar,
      sampleMean, List.range_succ]
  exact ⟨h1, h2, by rw [h1, h2]; norm_num⟩

/-- C8 amended: the correlation matrix is computed over the raw price
levels, not over the derived return series.  For every square-root
model that is positive on positives (as the real square root is), the
code matrix entry at (0, 1) of `pricesC8` is negative while the
return-series entry is positive, so the two matrices differ. -/
theorem c8_amended (sq : ℚ → ℚ) (hsq : ∀ q : ℚ, 0 < q → 0 < sq q) :
    corrMatrixCode sq pricesC8 0 1 < 0 ∧
    0 < corrMatrixSpec sq pricesC8 0 1 ∧
    corrMatrixCode sq pricesC8 0 1 ≠ corrMatrixSpec sq pricesC8 0 1 := by
  have hcovP : sampleCov [(1:ℚ), 2, 3] [(3:ℚ), 2, 1] = -1 := by
    norm_num [sampleCov, sampleMean]
  have hvarP : sampleVar [(1:ℚ), 2, 3] = 1 := by
    norm_num [sampleVar, sampleMean]
  have hvarQ : sampleVar [(3:ℚ), 2, 1] = 1 := by
    norm_num [sampleVar, sampleMean]
  have hpc0 : pctChange [(1:ℚ), 2, 3] = [1, 1/2] := by
    norm_num [pctChange, List.range_succ]
  have hpc1 : pctChange [(3:ℚ), 2, 1] = [-1/3, -1/2] := by
    norm_num [pctChange, List.range_succ]
  have hcovR : sampleCov [(1:ℚ), 1/2] [(-1/3 : ℚ), -1/2] = 1/24 := by
    norm_num [sampleCov, sampleMean]
  have hvarR0 : sampleVar [(1:ℚ), 1/2] = 1/8 := by
    norm_num [sampleVar, sampleMean]
  have hvarR1 : sampleVar [(-1/3 : ℚ), -1/2] = 1/72 := by
    norm_num [sampleVar, sampleMean]
  have hcode : corrMatrixCode sq pricesC8 0 1 < 0 := by
    show corrQ sq [(1:ℚ), 2, 3] [(3:ℚ), 2, 1] < 0
    rw [corrQ, hcovP, hvarP, hvarQ]
    exact div_neg_of_neg_of_pos (by norm_num)
      (mul_pos (hsq 1 one_pos) (hsq 1 one_pos))
  have hspec : 0 < corrMatrixSpec sq pricesC8 0 1 := by
    show 0 < corrQ sq (pctChange [(1:ℚ), 2, 3]) (pctChange [(3:ℚ), 2, 1])
    rw [hpc0, hpc1, corrQ, hcovR, hvarR0, hvarR1]
    exact div_pos (by norm_num)
      (mul_pos (hsq _ (by norm_num)) (hsq _ (by norm_num)))
  exact ⟨hcode, hspec, (lt_trans hcode hspec).ne⟩

theorem c8_amended_witness :
    corrMatrixCode (fun q => q) pricesC8 0 1 < 0 ∧
    0 < corrMatrixSpec (fun q => q) pricesC8 0 1 ∧
    corrMatrixCode (fun q => q) pricesC8 0 1 ≠ corrMatrixSpec (fun q => q) pricesC8 0 1 :=
  c8_amended (fun q => q) (fun _ h => h)

/-! ### C9: the two low-correlation counts never agree -/

/-- The smallest failing correlation matrix: two uncorrelated assets,
unit diagonal. -/
def M2unit : Fin 2 → Fin 2 → ℚ :=
  fun i j => if i = j then 1 else 0

/-- C9: the vectorised count and the per-ticker loop never agree — the
vectorised version subtracts 1 for a self-pair that was never counted
(for a threshold ≤ 1 the unit diagonal entry fails the strict
comparison), so it is one below the loop count for every asset.  At
the failing input `M2unit` with threshold 0.4 the vectorised count is
0 for each asset while the loop count (which matches the spec) is 1. -/
theorem c9_low_corr_counts :
    (∀ (n : Nat) (M : Fin n → Fin n → ℚ) (t : ℚ) (i : Fin n),
       M i i = 1 → (∀ j, M j i = M i j) → t ≤ 1 →
       lowCorrCountsVec M t i = (lowCorrLoopCount M t i : ℤ) - 1) ∧
    lowCorrCountsVec M2unit (2/5) 0 = 0 ∧
    lowCorrLoopCount M2unit (2/5) 0 = 1 ∧
    lowCorrCountsVec M2unit (2/5) 1 = 0 ∧
    lowCorrLoopCount M2unit (2/5) 1 = 1 := by
  have hgen : ∀ (n : Nat) (M : Fin n → Fin n → ℚ) (t : ℚ) (i : Fin n),
      M i i = 1 → (∀ j, M j i = M i j) → t ≤ 1 →
      lowCorrCountsVec M t i = (lowCorrLoopCount M t i : ℤ) - 1 := by
    intro n M t i hdiag hsymm ht
    have hfilter : (Finset.univ.filter (fun j : Fin n => |M i j| < t))
        = (Finset.univ.filter (fun j : Fin n => |M j i| < t ∧ j ≠ i)) := by
      apply Finset.filter_congr
      intro j _
      by_cases hj : j = i
      · subst hj
        rw [hdiag, abs_one]
        simp only [ne_eq, not_true_eq_false, and_false, iff_false]
        exact not_lt.mpr ht
      · rw [hsymm j]
        simp [hj]
    unfold lowCorrCountsVec lowCorrLoopCount
    rw [hfilter]
  have h00 : lowCorrCountsVec M2unit (2/5) 0 = 0 := by
    have hfilter : (Finset.univ.filter (fun j : Fin 2 => |M2unit 0 j| < 2/5)) = {1} := by
      refine Finset.ext (fun j => ?_)
      fin_cases j <;> norm_num [M2unit]
    unfold lowCorrCountsVec
    rw [hfilter]
    rfl
  have h01 : lowCorrLoopCount M2unit (2/5) 0 = 1 := by
    have hfilter : (Finset.univ.filter
        (fun j : Fin 2 => |M2unit j 0| < 2/5 ∧ j ≠ 0)) = {1} := by
      refine Finset.ext (fun j => ?_)
      fin_cases j <;> norm_num [M2unit]
    unfold lowCorrLoopCount
    rw [hfilter]
    rfl
  have h10 : lowCorrCountsVec M2unit (2/5) 1 = 0 := by
    have hfilter : (Finset.univ.filter (fun j : Fin 2 => |M2unit 1 j| < 2/5)) = {0} := by
      refine Finset.ext (fun j => ?_)
      fin_cases j <;> norm_num [M2unit]
    unfold lowCorrCountsVec
    rw [hfilter]
    rfl
  have h11 : lowCorrLoopCount M2unit (2/5) 1 = 1 := by
    have hfilter : (Finset.univ.filter
        (fun j : Fin 2 => |M2unit j 1| < 2/5 ∧ j ≠ 1)) = {0} := by
      refine Finset.ext (fun j => ?_)
      fin_cases j <;> norm_num [M2unit]
    unfold lowCorrLoopCount
    rw [hfilter]
    rfl
  exact ⟨hgen, h00, h01, h10, h11⟩

theorem c9_low_corr_counts_witness :
    lowCorrCountsVec M2unit (1/2) 0 = (lowCorrLoopCount M2unit (1/2) 0 : ℤ) - 1 :=
  c9_low_corr_counts.1 2 M2unit (1/2) 0 (by norm_num [M2unit])
    (fun j => by fin_cases j <;> norm_num [M2unit]) (by norm_num)

end TradingTools
